import Mathlib

/-!
Verification development for a forex signal pipeline.

The code is embedded shallowly over exact rational arithmetic (`ℚ` in place of
Python floats) with explicit state passing; code that can raise a Python
exception is embedded in `Except Unit`.  Network-facing candle fetches are
abstracted as oracle functions supplied as arguments, so every theorem
quantifies over all possible market data.
-/

namespace ForexSpec

/-- A normalized OHLC candle, as produced by utils.get_recent_candles
(keys time/open/high/low/close). -/
structure Candle where
  time : ℚ
  open_ : ℚ
  high : ℚ
  low : ℚ
  close : ℚ
deriving DecidableEq, Inhabited

/-! ### utils.py indicator library -/

/-- True range of a bar given the previous bar, from utils.atr:
max(high - low, |high - prevClose|, |low - prevClose|). -/
def trueRange (prev cur : Candle) : ℚ :=
  max (cur.high - cur.low) (max |cur.high - prev.close| |cur.low - prev.close|)

/-- The list of true ranges `trs` built by utils.atr / utils.calculate_atr
(one entry per bar from index 1 onward). -/
def trList (candles : List Candle) : List ℚ :=
  (candles.zip candles.tail).map fun pc => trueRange pc.1 pc.2

/-- utils.atr.  Guard in the source is `len(candles) < period` (not period+1).
Python `trs[-period:]` is `drop (length - period)` for period ≥ 1; the theorems
below restrict to period ≥ 1 (callers always use the default 14; period = 0
would raise ZeroDivisionError in Python). -/
def atr (candles : List Candle) (period : ℕ) : ℚ :=
  if candles.length < period then 0
  else
    let trs := trList candles
    (trs.drop (trs.length - period)).sum / period

/-- utils.calculate_atr: same true ranges, but guard `len < period + 1` and
neutral default 0.001. -/
def calculate_atr (candles : List Candle) (period : ℕ) : ℚ :=
  if candles.length < period + 1 then 1 / 1000
  else
    let trs := trList candles
    (trs.drop (trs.length - period)).sum / period

/-- Consecutive deltas closes[i+1] - closes[i], from utils.rsi. -/
def deltas (closes : List ℚ) : List ℚ :=
  (closes.zip closes.tail).map fun p => p.2 - p.1

/-- Per-bar gains max(delta, 0), from utils.rsi. -/
def gains (closes : List ℚ) : List ℚ := (deltas closes).map fun d => max d 0

/-- Per-bar losses |min(delta, 0)|, from utils.rsi. -/
def losses (closes : List ℚ) : List ℚ := (deltas closes).map fun d => |min d 0|

/-- The Wilder smoothing loop of utils.rsi: at each (gain, loss) input pair,
update the smoothed averages and emit the updated pair. -/
def wilderSteps (period ag al : ℚ) : List (ℚ × ℚ) → List (ℚ × ℚ)
  | [] => []
  | gl :: rest =>
    let ag' := (ag * (period - 1) + gl.1) / period
    let al' := (al * (period - 1) + gl.2) / period
    (ag', al') :: wilderSteps period ag' al' rest

/-- RSI value from a (smoothed avg gain, smoothed avg loss) pair.  The source
writes `rs = inf` when avg_loss == 0, which makes `100 - 100/(1+rs)` evaluate
to exactly 100.0 in float arithmetic; that branch is embedded explicitly. -/
def rsiVal (p : ℚ × ℚ) : ℚ :=
  if p.2 = 0 then 100 else 100 - 100 / (1 + p.1 / p.2)

/-- The sequence of (avg gain, avg loss) states at which utils.rsi emits a
value: the seed averages over the first `period` bars, then one Wilder step
per remaining bar. -/
def rsiStates (closes : List ℚ) (period : ℕ) : List (ℚ × ℚ) :=
  if closes.length < period + 1 then []
  else
    let g := gains closes
    let l := losses closes
    let ag := (g.take period).sum / period
    let al := (l.take period).sum / period
    (ag, al) :: wilderSteps period ag al ((g.drop period).zip (l.drop period))

/-- utils.rsi: Wilder-smoothed RSI, one value per emitted state. -/
def rsi (closes : List ℚ) (period : ℕ) : List ℚ :=
  (rsiStates closes period).map rsiVal

/-- The exponentially weighted mean sequence of pandas `ewm(span, adjust=False)`
used by utils.ema_slope: e0 = x0, e(t) = alpha*x(t) + (1-alpha)*e(t-1). -/
def ewmList (alpha : ℚ) : ℚ → List ℚ → List ℚ
  | e, [] => [e]
  | e, x :: xs => e :: ewmList alpha (alpha * x + (1 - alpha) * e) xs

/-- utils.ema_slope: difference of the last two points of the EWM mean with
span = period (alpha = 2/(period+1)); 0 when fewer than period+2 closes. -/
def ema_slope (closes : List ℚ) (period : ℕ) : ℚ :=
  if closes.length < period + 2 then 0
  else
    match closes with
    | [] => 0
    | c :: rest =>
      let es := ewmList (2 / ((period : ℚ) + 1)) c rest
      (es.getLast?).getD 0 - (es.dropLast.getLast?).getD 0

/-! ### Python string operators

Python's `in`, str.split and str.upper are embedded by structural recursion
over the character list (the library versions are not kernel-reducible). -/

/-- Python `c in s` for a single character. -/
def pyContains (s : String) (c : Char) : Bool := s.data.any fun a => a == c

/-- Helper for pySplitOn: split a character list at every separator. -/
def splitCharAux (c : Char) : List Char → List Char → List String
  | [], acc => [⟨acc.reverse⟩]
  | a :: rest, acc =>
    if a == c then ⟨acc.reverse⟩ :: splitCharAux c rest []
    else splitCharAux c rest (a :: acc)

/-- Python s.split(sep) for a one-character separator. -/
def pySplitOn (s : String) (c : Char) : List String := splitCharAux c s.data []

/-- Python s.upper() (ASCII case mapping, which covers every string the
program uppercases). -/
def pyUpper (s : String) : String := ⟨s.data.map Char.toUpper⟩

/-! ### Association-list model of Python dicts -/

/-- Lookup of a key in an association list (first match), modeling dict access. -/
def alookup {κ β : Type} [DecidableEq κ] : List (κ × β) → κ → Option β
  | [], _ => none
  | p :: rest, k => if p.1 = k then some p.2 else alookup rest k

/-- Python dict assignment d[k] = v: replace in place if present (keeping
insertion order), else append. -/
def aset {κ β : Type} [DecidableEq κ] : List (κ × β) → κ → β → List (κ × β)
  | [], k, v => [(k, v)]
  | p :: rest, k, v => if p.1 = k then (k, v) :: rest else p :: aset rest k v

/-! ### currency_strength.py -/

/-- The fixed tracked-currency universe from currency_strength.py. -/
def CURRENCIES : List String := ["EUR", "GBP", "USD", "JPY", "CHF", "AUD", "NZD", "CAD"]

/-- Python 3 round-half-to-even on an exact rational.  For the n ≤ 8 rank
grids arising here, every float value the source rounds is either exactly
representable or far from a rounding boundary, so exact rational rounding
agrees with the float computation. -/
def pyRound (x : ℚ) : ℤ :=
  let f := ⌊x⌋
  let fr := x - f
  if fr < 1 / 2 then f
  else if 1 / 2 < fr then f + 1
  else if f % 2 = 0 then f else f + 1

/-- Rank assigned to sorted position idx out of n currencies, from
calculate_strength: round(7 - idx*14/(n-1)), with a computed 0 nudged to +1
in the top half (idx < n/2) and -1 otherwise. -/
def rankOf (idx n : ℕ) : ℤ :=
  let r := pyRound (7 - (idx * 14 : ℚ) / ((n : ℚ) - 1))
  if r = 0 then (if (idx : ℚ) < (n : ℚ) / 2 then 1 else -1) else r

/-- Per-pair score step of calculate_strength.  `cand` is the candle oracle
standing for get_recent_candles.  Returns `.ok none` when the pair is skipped,
`.error` when Python would raise (ZeroDivisionError on closes[-2] == 0,
ValueError unpacking a pair with more than one underscore), and otherwise the
(base, quote, score) contribution. -/
def pairScore (cand : String → String → ℕ → List Candle) (pair : String) :
    Except Unit (Option (String × String × ℚ)) :=
  if ¬ pyContains pair '_' then .ok none
  else
    match pySplitOn pair '_' with
    | [base, quote] =>
      if base ∉ CURRENCIES ∨ quote ∉ CURRENCIES then .ok none
      else
        let candles := cand pair "H4" 20
        if candles = [] then .ok none
        else
          let closes := candles.map Candle.close
          let pc : Except Unit ℚ :=
            if 2 ≤ closes.length then
              let c1 := closes.getD (closes.length - 1) 0
              let c2 := closes.getD (closes.length - 2) 0
              if c2 = 0 then .error () else .ok ((c1 - c2) / c2 * 100)
            else .ok 0
          match pc with
          | .error e => .error e
          | .ok price_change =>
            let rsi_val := ((rsi closes 14).getLast?).getD 0
            let ema_trend := ema_slope closes 10
            let atr_val := atr candles 14
            let norm_rsi := (rsi_val - 50) / 50
            let score := (2 / 5 : ℚ) * price_change + (3 / 10) * norm_rsi * 100
              + (1 / 5) * ema_trend * 100 + (1 / 10) * atr_val
            .ok (some (base, quote, score))
    | _ => .error ()

/-- The contribution list built by the pair loop of calculate_strength:
(base, +score) and (quote, -score) for every non-skipped pair, in order. -/
def scoreContribs (cand : String → String → ℕ → List Candle) :
    List String → Except Unit (List (String × ℚ))
  | [] => .ok []
  | p :: rest => do
    let r ← pairScore cand p
    let tail ← scoreContribs cand rest
    match r with
    | some bqs => .ok ((bqs.1, bqs.2.2) :: (bqs.2.1, -bqs.2.2) :: tail)
    | none => .ok tail

/-- All score contributions attributed to one currency. -/
def valsFor (contribs : List (String × ℚ)) (cur : String) : List ℚ :=
  contribs.filterMap fun p => if p.1 = cur then some p.2 else none

/-- The average score of one currency, when it has any contributions. -/
def avgAt (contribs : List (String × ℚ)) (cur : String) : Option ℚ :=
  let vals := valsFor contribs cur
  if vals = [] then none else some (vals.sum / (vals.length : ℚ))

/-- avg_scores of calculate_strength: currencies (in CURRENCIES order) that
received at least one contribution, with the mean of their contributions. -/
def avgScoresOf (contribs : List (String × ℚ)) : List (String × ℚ) :=
  CURRENCIES.filterMap fun cur => (avgAt contribs cur).map fun v => (cur, v)

/-- Descending-score order used by `sorted(..., key=score, reverse=True)`. -/
def scoreGE (a b : String × ℚ) : Prop := b.2 ≤ a.2

instance : DecidableRel scoreGE := fun a b => inferInstanceAs (Decidable (b.2 ≤ a.2))

/-- The ranking tail of calculate_strength: stable-sort avg_scores descending
and assign rankOf by position.  With exactly one scored currency the source
evaluates `0 * 14 / (n - 1) = 0 / 0` and raises ZeroDivisionError, embedded
as `.error`. -/
def ranksOf (avg : List (String × ℚ)) : Except Unit (List (String × ℤ)) :=
  let sorted_scores := List.insertionSort scoreGE avg
  let n := sorted_scores.length
  if n = 1 then .error ()
  else .ok (sorted_scores.enum.map fun p => (p.2.1, rankOf p.1 n))

/-- currency_strength.calculate_strength over a candle oracle and pair list. -/
def calculate_strength (pairs : List String)
    (cand : String → String → ℕ → List Candle) : Except Unit (List (String × ℤ)) := do
  let c ← scoreContribs cand pairs
  ranksOf (avgScoresOf c)

/-- currency_strength.strength_filter, with the source's six disjuncts in
source order. -/
def strength_filter (strong_val weak_val : ℤ) : Bool :=
  (strong_val == 7 && weak_val == -7) ||
  (strong_val == 7 && weak_val == -5) ||
  (strong_val == 5 && weak_val == -5) ||
  (weak_val == -7 && strong_val == 7) ||
  (weak_val == -7 && strong_val == 5) ||
  (weak_val == -5 && strong_val == 5)

/-- The simple product condition the claim states strength_filter equals:
strong in {5, 7} and weak in {-5, -7}. -/
def strength_filter_spec (strong_val weak_val : ℤ) : Bool :=
  (strong_val == 5 || strong_val == 7) && (weak_val == -5 || weak_val == -7)

/-! ### breakout.py over a Python-value model

breakout.check_breakout_h1 / check_breakout_yesterday index the candles
returned by utils.get_recent_candles with `['mid']`, so the embedding keeps
the dict structure of the normalized candles explicit.  `pf` abstracts
Python's float() conversion (which may raise); `fetch` abstracts the raw
OANDA response. -/

inductive PyVal where
  | null : PyVal
  | num (q : ℚ) : PyVal
  | str (s : String) : PyVal
  | dict (entries : List (String × PyVal)) : PyVal
  | list (items : List PyVal) : PyVal

/-- Python d.get(k): a dict lookup that returns nothing when missing;
raises (error) when the receiver is not a dict. -/
def pvGet (v : PyVal) (k : String) : Except Unit (Option PyVal) :=
  match v with
  | .dict entries => .ok (alookup entries k)
  | _ => .error ()

/-- Python d[k]: KeyError when the key is missing, TypeError when the
receiver is not a dict; both modeled as error. -/
def pvIndex (v : PyVal) (k : String) : Except Unit PyVal :=
  match v with
  | .dict entries =>
    match alookup entries k with
    | some x => .ok x
    | none => .error ()
  | _ => .error ()

/-- One step of the normalization loop in utils.get_recent_candles: a dict
candle becomes a dict with keys time/open/high/low/close, a list/tuple of
length ≥ 4 a dict with keys open/high/low/close, anything else is skipped. -/
def normalizeOne (pf : PyVal → Except Unit ℚ) (c : PyVal) : Except Unit (Option PyVal) :=
  match c with
  | .dict entries => do
    let mid := (alookup entries "mid").getD (.dict entries)
    let dO ← pvGet mid "open"
    let vO ← pvGet mid "o"
    let o ← pf (vO.getD (dO.getD (.num 0)))
    let dH ← pvGet mid "high"
    let vH ← pvGet mid "h"
    let h ← pf (vH.getD (dH.getD (.num 0)))
    let dL ← pvGet mid "low"
    let vL ← pvGet mid "l"
    let lo ← pf (vL.getD (dL.getD (.num 0)))
    let dC ← pvGet mid "close"
    let vC ← pvGet mid "c"
    let cl ← pf (vC.getD (dC.getD (.num 0)))
    .ok (some (.dict [("time", (alookup entries "time").getD .null),
      ("open", .num o), ("high", .num h), ("low", .num lo), ("close", .num cl)]))
  | .list items =>
    if 4 ≤ items.length then do
      let o ← pf (items.getD 0 .null)
      let h ← pf (items.getD 1 .null)
      let lo ← pf (items.getD 2 .null)
      let cl ← pf (items.getD 3 .null)
      .ok (some (.dict [("open", .num o), ("high", .num h),
        ("low", .num lo), ("close", .num cl)]))
    else .ok none
  | _ => .ok none

/-- The normalization loop of utils.get_recent_candles. -/
def normalizeCandles (pf : PyVal → Except Unit ℚ) : List PyVal → Except Unit (List PyVal)
  | [] => .ok []
  | c :: rest => do
    let hd ← normalizeOne pf c
    let tail ← normalizeCandles pf rest
    match hd with
    | some d => .ok (d :: tail)
    | none => .ok tail

/-- utils.get_recent_candles over a raw-fetch oracle. -/
def get_recent_candles (fetch : String → String → ℕ → List PyVal)
    (pf : PyVal → Except Unit ℚ) (pair timeframe : String) (count : ℕ) :
    Except Unit (List PyVal) :=
  normalizeCandles pf (fetch pair timeframe count)

/-- The try-block body of breakout.check_breakout_h1; the wrapper catches any
error and returns False. -/
def check_breakout_h1_body (fetch : String → String → ℕ → List PyVal)
    (pf : PyVal → Except Unit ℚ) (pair : String) : Except Unit Bool := do
  let candles ← get_recent_candles fetch pf pair "H1" 1
  match candles.getLast? with
  | none => .ok false
  | some last => do
    let mid ← pvIndex last "mid"
    let current_price ← pf (← pvIndex mid "c")
    let high ← pf (← pvIndex mid "h")
    let low ← pf (← pvIndex mid "l")
    .ok (decide (current_price > high) || decide (current_price < low))

/-- breakout.check_breakout_h1. -/
def check_breakout_h1 (fetch : String → String → ℕ → List PyVal)
    (pf : PyVal → Except Unit ℚ) (pair : String) : Bool :=
  match check_breakout_h1_body fetch pf pair with
  | .ok b => b
  | .error _ => false

/-- The try-block body of breakout.check_breakout_yesterday. -/
def check_breakout_yesterday_body (fetch : String → String → ℕ → List PyVal)
    (pf : PyVal → Except Unit ℚ) (pair : String) : Except Unit Bool := do
  let daily ← get_recent_candles fetch pf pair "D" 2
  if daily.length < 2 then .ok false
  else do
    let prev := daily.getD (daily.length - 2) .null
    let pmid ← pvIndex prev "mid"
    let prev_high ← pf (← pvIndex pmid "h")
    let prev_low ← pf (← pvIndex pmid "l")
    let h1 ← get_recent_candles fetch pf pair "H1" 1
    match h1.getLast? with
    | none => .ok false
    | some lastc => do
      let lmid ← pvIndex lastc "mid"
      let current_price ← pf (← pvIndex lmid "c")
      .ok (decide (current_price > prev_high) || decide (current_price < prev_low))

/-- breakout.check_breakout_yesterday. -/
def check_breakout_yesterday (fetch : String → String → ℕ → List PyVal)
    (pf : PyVal → Except Unit ℚ) (pair : String) : Bool :=
  match check_breakout_yesterday_body fetch pf pair with
  | .ok b => b
  | .error _ => false

/-! ### trade_signal.py -/

/-- config.ALERT_COOLDOWN = 1 * 3600 seconds. -/
def ALERT_COOLDOWN : ℚ := 3600

/-- config.STRENGTH_ALERT_COOLDOWN = 4 * 3600 seconds. -/
def STRENGTH_ALERT_COOLDOWN : ℚ := 14400

/-- trade_signal.MIN_RRR. -/
def MIN_RRR : ℚ := 2

/-- trade_signal.MIN_STRONG. -/
def MIN_STRONG : ℤ := 5

/-- trade_signal.MAX_WEAK. -/
def MAX_WEAK : ℤ := -5

/-- trade_signal.RANGE_LOOKBACK. -/
def RANGE_LOOKBACK : ℕ := 10

/-- trade_signal.ATTEMPTS_NEEDED. -/
def ATTEMPTS_NEEDED : ℕ := 1

/-- trade_signal.MIN_SR_BUFFER. -/
def MIN_SR_BUFFER : ℚ := 3 / 10

/-- trade_signal.MAX_SR_BUFFER. -/
def MAX_SR_BUFFER : ℚ := 1

/-- The dict appended to _ACTIVE_TRADES and returned by build_trade_signal. -/
structure Trade where
  pair : String
  direction : String
  entry : ℚ
  stop_loss : ℚ
  take_profit_levels : List ℚ
  strength_diff : ℤ
  time : ℚ
deriving DecidableEq

/-- The data interpolated into the alert text passed to send_alert; recording
it models the outer-world effect of the notification. -/
structure AlertMsg where
  pair : String
  scenario : String
  strength_diff : ℤ
  strong_curr : String
  strong_val : ℤ
  weak_curr : String
  weak_val : ℤ
  entry : ℚ
  stop_loss : ℚ
  atr_val : ℚ
  tps : List ℚ
  direction : String
deriving DecidableEq

/-- The collaborators of build_trade_signal.  `cand` is get_recent_candles
(already-normalized candles).  The remaining three are referenced by
trade_signal.py but their definitions are not in the repository snapshot
(utils.py has no get_rsi, and breakout.py's detectors take one argument and
return a bool while trade_signal.py calls them with three arguments and
unpacks a triple).  Modelled from the spec: `grsi` is the RSI series helper
get_rsi, and `bH1`/`bYest` are BreakoutDetector strategies returning the
broken level, direction tag, and optional H1 pivot list, or none.  The
theorems below quantify over all behaviors of these oracles. -/
structure TSEnv where
  cand : String → String → ℕ → List Candle
  grsi : List ℚ → List ℚ
  bH1 : String → List Candle → List (String × ℤ) → Option (ℚ × String × Option (List ℚ))
  bYest : String → List Candle → List (String × ℤ) → Option (ℚ × String × Option (List ℚ))

/-- The module-level mutable state of trade_signal.py plus the sent-alert
log (the externally visible effect of send_alert). -/
structure TSState where
  lastAlert : List (String × ℚ)
  activeTrades : List Trade
  prevRsi : String → Option ℚ
  armedBuy : String → Bool
  armedSell : String → Bool
  sent : List AlertMsg

/-- Point update of a string-indexed optional-rational map. -/
def setQ (f : String → Option ℚ) (k : String) (v : ℚ) : String → Option ℚ :=
  fun s => if s = k then some v else f s

/-- Point update of a string-indexed boolean map. -/
def setB (f : String → Bool) (k : String) (v : Bool) : String → Bool :=
  fun s => if s = k then v else f s

/-- trade_signal.get_rsi_series: `get_rsi(closes, RSI_PERIOD) or []` (the
`or []` is the identity on lists). -/
def get_rsi_series (env : TSEnv) (closes : List ℚ) : List ℚ := env.grsi closes

/-- The per-candle test inside the loop of check_retest_confirmation. -/
def retestHit (direction : String) (breakout_level tolerance : ℚ)
    (candle : Candle) (rsi_val : ℚ) : Bool :=
  if direction = "buy" then
    decide (|candle.low - breakout_level| ≤ tolerance) &&
      decide (candle.close > candle.open_) && decide (rsi_val < 70)
  else if direction = "sell" then
    decide (|candle.high - breakout_level| ≤ tolerance) &&
      decide (candle.close < candle.open_) && decide (rsi_val > 30)
  else false

/-- trade_signal.check_retest_confirmation.  The loop over i in range(-5, 0)
is indexed here by k = i + 5. -/
def check_retest_confirmation (env : TSEnv) (pair : String)
    (breakout_level : ℚ) (direction : String) : Bool :=
  let m15 := env.cand pair "M15" 50
  if m15 = [] then false
  else
    let closes := m15.map Candle.close
    if closes.length < 5 then false
    else
      let atr_val := atr m15 14
      let tolerance := atr_val * 1
      let rsi_series := get_rsi_series env closes
      if rsi_series.length < 5 then false
      else
        (List.range 5).any fun k =>
          retestHit direction breakout_level tolerance
            (m15.getD (m15.length - 5 + k) default)
            (rsi_series.getD (rsi_series.length - 5 + k) 0)

/-- trade_signal.confirm_m15_range.  Python's max/min of highs[:-2]/lows[:-2]
(which would raise on an empty slice; every caller passes lookback = 10, so
the slice has 8 elements) is taken with a default of 0. -/
def confirm_m15_range (env : TSEnv) (pair direction : String)
    (lookback attempts_needed : ℕ) : Bool :=
  let m15 := env.cand pair "M15" lookback
  if m15 = [] ∨ m15.length < lookback then false
  else
    let highs := m15.map Candle.high
    let lows := m15.map Candle.low
    let closes := m15.map Candle.close
    let swing_high := ((highs.take (highs.length - 2)).max?).getD 0
    let swing_low := ((lows.take (lows.length - 2)).min?).getD 0
    if direction = "sell" then
      let attempts := ((List.range 2).filter fun k =>
        decide ((m15.getD (m15.length - 2 + k) default).high ≥ swing_high) &&
          decide (closes.getD (closes.length - 2 + k) 0 < swing_high)).length
      decide (attempts ≥ attempts_needed)
    else if direction = "buy" then
      let attempts := ((List.range 2).filter fun k =>
        decide ((m15.getD (m15.length - 2 + k) default).low ≤ swing_low) &&
          decide (closes.getD (closes.length - 2 + k) 0 > swing_low)).length
      decide (attempts ≥ attempts_needed)
    else false

/-- trade_signal.get_dynamic_sr_buffer. -/
def get_dynamic_sr_buffer (strength_diff : ℤ) (atr_val : ℚ) : ℚ :=
  let bm :=
    if strength_diff ≥ 14 then MIN_SR_BUFFER
    else if strength_diff ≤ 10 then MAX_SR_BUFFER
    else MAX_SR_BUFFER - ((strength_diff : ℚ) - 10) * (MAX_SR_BUFFER - MIN_SR_BUFFER) / 4
  bm * atr_val

/-- trade_signal.confirm_h1_sr_filter. -/
def confirm_h1_sr_filter (env : TSEnv) (pair direction : String)
    (h1_pivots : List ℚ) (strength_diff : ℤ) : Bool :=
  if h1_pivots = [] then true
  else
    let candles_1h := env.cand pair "H1" 20
    if candles_1h = [] then false
    else
      let last_close := ((candles_1h.getLast?).map Candle.close).getD 0
      let atr_val := atr candles_1h 14
      let buffer := get_dynamic_sr_buffer strength_diff atr_val
      !(h1_pivots.any fun pivot => decide (|last_close - pivot| ≤ buffer))

/-- The M15 RSI pullback/crossback block of build_trade_signal: given the
direction, latest RSI, previous RSI and the pair's armed flags, produce the
signal and the updated (buy, sell) flags. -/
def rsiCross (direction : String) (last_rsi : ℚ) (prev_rsi : Option ℚ)
    (armedB armedS : Bool) : Option String × Bool × Bool :=
  if direction = "buy" then
    if last_rsi < 50 then (none, true, armedS)
    else if armedB && prev_rsi.any (fun p => decide (p < 50)) && decide (last_rsi ≥ 50) then
      (some "BUY", false, armedS)
    else (none, armedB, armedS)
  else if direction = "sell" then
    if last_rsi > 50 then (none, armedB, true)
    else if armedS && prev_rsi.any (fun p => decide (p > 50)) && decide (last_rsi ≤ 50) then
      (some "SELL", armedB, false)
    else (none, armedB, armedS)
  else (none, armedB, armedS)

/-- The tail of trade_signal.build_trade_signal from the M15 range
confirmation onward: range gate, reward:risk gate, then alert emission,
cooldown recording and active-trade append.  st1 is the state after the RSI
block's flag/previous-RSI updates. -/
def bts_finish (env : TSEnv) (pair : String) (now : ℚ) (scenario : String)
    (strength_diff : ℤ) (strong_curr : String) (strong_val : ℤ)
    (weak_curr : String) (weak_val : ℤ) (direction : String)
    (atr_val entry stop_loss tp1 tp2 tp3 : ℚ) (st1 : TSState) :
    Except Unit (Option Trade × TSState) :=
  if ¬ confirm_m15_range env pair direction RANGE_LOOKBACK ATTEMPTS_NEEDED then .ok (none, st1)
  else
    let rrr := if stop_loss ≠ entry then |tp1 - entry| / |entry - stop_loss| else 0
    if rrr < MIN_RRR then .ok (none, st1)
    else
      let trade : Trade :=
        { pair := pair, direction := direction, entry := entry,
          stop_loss := stop_loss, take_profit_levels := [tp1, tp2, tp3],
          strength_diff := strength_diff, time := now }
      let alert : AlertMsg :=
        { pair := pair, scenario := scenario, strength_diff := strength_diff,
          strong_curr := strong_curr, strong_val := strong_val,
          weak_curr := weak_curr, weak_val := weak_val,
          entry := entry, stop_loss := stop_loss, atr_val := atr_val,
          tps := [tp1, tp2, tp3], direction := direction }
      .ok (some trade,
        { st1 with
          sent := st1.sent ++ [alert],
          lastAlert := aset st1.lastAlert pair now,
          activeTrades := st1.activeTrades ++ [trade] })

/-- The M15 RSI pullback + crossback block of build_trade_signal.  When the
M15 history is empty, last_rsi is None, the block is skipped and the
signal-mismatch return fires with the state untouched; an empty RSI series
on nonempty history raises IndexError ([-1]), embedded as `.error`. -/
def bts_rsi_gate (env : TSEnv) (pair : String) (now : ℚ) (scenario : String)
    (strength_diff : ℤ) (strong_curr : String) (strong_val : ℤ)
    (weak_curr : String) (weak_val : ℤ) (direction : String)
    (atr_val entry stop_loss tp1 tp2 tp3 : ℚ) (st : TSState) :
    Except Unit (Option Trade × TSState) :=
  let m15_full := env.cand pair "M15" 100
  if m15_full = [] then .ok (none, st)
  else
    match (get_rsi_series env (m15_full.map Candle.close)).getLast? with
    | none => .error ()
    | some last_rsi =>
      let res := rsiCross direction last_rsi (st.prevRsi pair)
        (st.armedBuy pair) (st.armedSell pair)
      let st1 : TSState :=
        { st with
          armedBuy := setB st.armedBuy pair res.2.1,
          armedSell := setB st.armedSell pair res.2.2,
          prevRsi := setQ st.prevRsi pair last_rsi }
      if res.1 ≠ some (pyUpper direction) then .ok (none, st1)
      else bts_finish env pair now scenario strength_diff strong_curr strong_val
        weak_curr weak_val direction atr_val entry stop_loss tp1 tp2 tp3 st1

/-- The middle of build_trade_signal after the pair has been split: strength
lookups, direction assignment, strength filter, H1 SR filter, ATR and entry
computation, stop/take-profit assignment and the retest gate. -/
def bts_eval (env : TSEnv) (pair : String) (strength_data : List (String × ℤ))
    (now : ℚ) (scenario : String) (breakout_level : ℚ) (h1_pivots : List ℚ)
    (base quote : String) (st : TSState) : Except Unit (Option Trade × TSState) :=
  let base_strength := (alookup strength_data base).getD 0
  let quote_strength := (alookup strength_data quote).getD 0
  let strength_diff := |base_strength - quote_strength|
  -- the single if/else assigning direction, strong_* and weak_*
  let dsw := if base_strength ≥ quote_strength
    then ("buy", base, base_strength, quote, quote_strength)
    else ("sell", quote, quote_strength, base, base_strength)
  if dsw.2.2.1 < MIN_STRONG ∨ dsw.2.2.2.2 > -MAX_WEAK ∨ strength_diff < 10 then
    .ok (none, st)
  else if ¬ confirm_h1_sr_filter env pair dsw.1 h1_pivots strength_diff then
    .ok (none, st)
  else
    let atr_val := atr (env.cand pair "H1" 50) 14
    let m15_candles := env.cand pair "M15" 1
    if m15_candles = [] then .ok (none, st)
    else
      let entry := ((m15_candles.getLast?).map Candle.close).getD 0
      -- the single if/else assigning stop_loss and the take profits
      let sltp := if dsw.1 = "buy"
        then (entry - atr_val, entry + atr_val * 2, entry + atr_val * 4, entry + atr_val * 6)
        else (entry + atr_val, entry - atr_val * 2, entry - atr_val * 4, entry - atr_val * 6)
      if ¬ check_retest_confirmation env pair breakout_level dsw.1 then
        .ok (none, st)
      else
        bts_rsi_gate env pair now scenario strength_diff dsw.2.1 dsw.2.2.1
          dsw.2.2.2.1 dsw.2.2.2.2 dsw.1 atr_val entry sltp.1 sltp.2.1 sltp.2.2.1
          sltp.2.2.2 st

/-- trade_signal.build_trade_signal as a state transformer.  `.error` marks
the places where the Python function would raise (unpacking a malformed pair
identifier; indexing an empty RSI series with [-1]). -/
def build_trade_signal (env : TSEnv) (pair : String)
    (strength_data : List (String × ℤ)) (now : ℚ) (st : TSState) :
    Except Unit (Option Trade × TSState) :=
  if now - ((alookup st.lastAlert pair).getD 0) < ALERT_COOLDOWN then .ok (none, st)
  else
    let candles_1h := env.cand pair "H1" 50
    if candles_1h = [] then .ok (none, st)
    else
      let h1_breakout := env.bH1 pair candles_1h strength_data
      let yest_breakout := env.bYest pair candles_1h strength_data
      let scenario := if h1_breakout.isSome then "Breakout Today"
        else "Breakout Yesterday + Retest"
      match h1_breakout.orElse fun _ => yest_breakout with
      | none => .ok (none, st)
      | some bi =>
        match pySplitOn pair '_' with
        | [base, quote] =>
          bts_eval env pair strength_data now scenario bi.1 ((bi.2.2).getD [])
            base quote st
        | _ => .error ()

/-! ### app.py cooldown gate (CooldownStore) -/

/-- The cooldown gate of app.check_trade_signal (lines 67-70): the alert is
allowed to proceed unless the key was recorded within ALERT_COOLDOWN of now. -/
def cooldown_allows (last_trade_alert_times : List ((String × String) × ℚ))
    (key : String × String) (now_ts : ℚ) : Bool :=
  match alookup last_trade_alert_times key with
  | some t => decide (¬ (now_ts - t < ALERT_COOLDOWN))
  | none => true

/-- Recording a fire time for a key (app.check_trade_signal line 73). -/
def record_alert (last_trade_alert_times : List ((String × String) × ℚ))
    (key : String × String) (now_ts : ℚ) : List ((String × String) × ℚ) :=
  aset last_trade_alert_times key now_ts

/-! ### Derived tables and concrete inputs used by the theorems -/

/-- The concrete rank grids rankOf produces for each population size
n ∈ [2, 8] (at most 8 currencies are tracked). -/
def rankTable : ℕ → List ℤ
  | 2 => [7, -7]
  | 3 => [7, 1, -7]
  | 4 => [7, 2, -2, -7]
  | 5 => [7, 4, 1, -4, -7]
  | 6 => [7, 4, 1, -1, -4, -7]
  | 7 => [7, 5, 2, 1, -2, -5, -7]
  | 8 => [7, 5, 3, 1, -1, -3, -5, -7]
  | _ => []

/-- Two identical candles with high 1 and low 0: a concrete input on which
utils.atr with period 2 computes 1/2 instead of a neutral default. -/
def atrShortCandles : List Candle := [⟨0, 0, 1, 0, 0⟩, ⟨0, 0, 1, 0, 0⟩]

/-! Concrete market data on which build_trade_signal emits a BUY signal
(used to witness the C2 theorem): 14 identical bullish H1/M15 candles give
ATR 13/14, the M15 range and retest confirmations hold, and the RSI crosses
up through 50 with the buy flag armed. -/

def witC1 : Candle := ⟨0, 0, 1, 0, 1⟩

def witH1 : List Candle := List.replicate 14 witC1

def witFullC : Candle := ⟨0, 0, 1, 0, 7⟩

def witRangeC : Candle := ⟨0, 5, 7, 5, 6⟩

def witRange : List Candle := List.replicate 10 witRangeC

def witEntryC : Candle := ⟨0, 0, 1, 0, 10⟩

/-- Candle oracle for the C2 witness, dispatching on the requested count
(count 50 serves both the H1 window and the M15 retest window). -/
def witCand : String → String → ℕ → List Candle := fun _ _ n =>
  if n = 50 then witH1
  else if n = 100 then [witFullC]
  else if n = 10 then witRange
  else [witEntryC]

/-- RSI oracle for the C2 witness: 60 on the single-close series (the M15
pullback read), 49 elsewhere (below the 70 retest cap). -/
def witGrsi : List ℚ → List ℚ := fun l =>
  if l.length = 1 then [60] else List.replicate l.length 49

def witEnv : TSEnv :=
  ⟨witCand, witGrsi, fun _ _ _ => some (0, "buy", some []), fun _ _ _ => none⟩

def witStrength : List (String × ℤ) := [("EUR", 7), ("USD", -7)]

def witState : TSState := ⟨[], [], fun _ => some 40, fun _ => true, fun _ => false, []⟩

/-- The state after the RSI block fires the BUY crossback. -/
def witState1 : TSState := ⟨[], [], setQ (fun _ => some 40) "EUR_USD" 60,
  setB (fun _ => true) "EUR_USD" false, setB (fun _ => false) "EUR_USD" false, []⟩

def witTrade : Trade := ⟨"EUR_USD", "buy", 10, 127 / 14, [83 / 7, 96 / 7, 109 / 7], 14, 3600⟩

def witAlert : AlertMsg := ⟨"EUR_USD", "Breakout Today", 14, "EUR", 7, "USD", -7, 10,
  127 / 14, 13 / 14, [83 / 7, 96 / 7, 109 / 7], "buy"⟩

def witStateFinal : TSState := ⟨[("EUR_USD", 3600)], [witTrade],
  setQ (fun _ => some 40) "EUR_USD" 60, setB (fun _ => true) "EUR_USD" false,
  setB (fun _ => false) "EUR_USD" false, [witAlert]⟩

/-! Concrete inputs for the strength-engine claims: a candle oracle that
always returns one unit candle (so each scored pair contributes ±30), the
resulting contribution lists for EUR_USD and for the degenerate pair
EUR_EUR, and the expected rank map. -/

def csCand : String → String → ℕ → List Candle := fun _ _ _ => [⟨0, 1, 1, 1, 1⟩]

def csContribs : List (String × ℚ) := [("EUR", -30), ("USD", 30)]

def csContribsEE : List (String × ℚ) := [("EUR", -30), ("EUR", 30)]

/-! # Theorems -/

/-! ### Helper lemmas -/

theorem alookup_aset_self {κ β : Type} [DecidableEq κ] (l : List (κ × β)) (k : κ) (v : β) :
    alookup (aset l k v) k = some v := by
  induction l with
  | nil => simp [aset, alookup]
  | cons p rest ih =>
    by_cases h : p.1 = k
    · simp [aset, alookup, h]
    · simp [aset, alookup, h, ih]

theorem trueRange_nonneg (prev cur : Candle) : 0 ≤ trueRange prev cur :=
  le_trans (abs_nonneg _) (le_max_of_le_right (le_max_left _ _))

theorem trList_nonneg (candles : List Candle) : ∀ x ∈ trList candles, 0 ≤ x := by
  intro x hx
  obtain ⟨pc, _, rfl⟩ := List.mem_map.1 hx
  exact trueRange_nonneg pc.1 pc.2

theorem atr_nonneg (candles : List Candle) (period : ℕ) : 0 ≤ atr candles period := by
  unfold atr
  split
  · exact le_refl 0
  · exact div_nonneg
      (List.sum_nonneg fun x hx =>
        trList_nonneg candles x ((List.drop_sublist _ _).mem hx))
      (Nat.cast_nonneg period)

theorem calculate_atr_nonneg (candles : List Candle) (period : ℕ) :
    0 ≤ calculate_atr candles period := by
  unfold calculate_atr
  split
  · norm_num
  · exact div_nonneg
      (List.sum_nonneg fun x hx =>
        trList_nonneg candles x ((List.drop_sublist _ _).mem hx))
      (Nat.cast_nonneg period)

theorem trList_length (candles : List Candle) :
    (trList candles).length = candles.length - 1 := by
  simp [trList, List.length_zip]

/-! ### C10 -/

/-- Claim C10: strength_filter agrees pointwise with the simple product
condition, and returns true exactly when the strong value is 5 or 7 and the
weak value is -5 or -7. -/
theorem strength_filter_refines (strong_val weak_val : ℤ) :
    strength_filter strong_val weak_val = strength_filter_spec strong_val weak_val ∧
      (strength_filter strong_val weak_val = true ↔
        (strong_val = 5 ∨ strong_val = 7) ∧ (weak_val = -5 ∨ weak_val = -7)) := by
  have hsf : strength_filter strong_val weak_val = true ↔
      (strong_val = 5 ∨ strong_val = 7) ∧ (weak_val = -5 ∨ weak_val = -7) := by
    simp only [strength_filter, Bool.or_eq_true, Bool.and_eq_true, beq_iff_eq]
    omega
  have hspec : strength_filter_spec strong_val weak_val = true ↔
      (strong_val = 5 ∨ strong_val = 7) ∧ (weak_val = -5 ∨ weak_val = -7) := by
    simp only [strength_filter_spec, Bool.and_eq_true, Bool.or_eq_true, beq_iff_eq]
  exact ⟨Bool.eq_iff_iff.mpr (hsf.trans hspec.symm), hsf⟩

/-! ### C4 -/

/-- Claim C4: after a key's fire time is recorded at t, the cooldown gate of
app.check_trade_signal suppresses the alert at any t' with t' - t below
ALERT_COOLDOWN and allows it at any t' with t' - t at or beyond it. -/
theorem cooldown_record_window (m : List ((String × String) × ℚ))
    (key : String × String) (t t' : ℚ) :
    (t' - t < ALERT_COOLDOWN → cooldown_allows (record_alert m key t) key t' = false) ∧
      (ALERT_COOLDOWN ≤ t' - t → cooldown_allows (record_alert m key t) key t' = true) := by
  unfold cooldown_allows record_alert
  rw [alookup_aset_self]
  constructor
  · intro h
    simp [h]
  · intro h
    simp [not_lt.2 h]

/-- Witness for C4 at key ("EUR_USD", "London") recorded at time 0: a check
10 seconds later is suppressed, one 3700 seconds later is allowed. -/
theorem cooldown_record_window_witness :
    ((10 : ℚ) - 0 < ALERT_COOLDOWN ∧
      cooldown_allows (record_alert [] ("EUR_USD", "London") 0) ("EUR_USD", "London") 10 = false) ∧
    (ALERT_COOLDOWN ≤ (3700 : ℚ) - 0 ∧
      cooldown_allows (record_alert [] ("EUR_USD", "London") 0) ("EUR_USD", "London") 3700 = true) :=
  ⟨⟨by norm_num [ALERT_COOLDOWN],
    (cooldown_record_window [] ("EUR_USD", "London") 0 10).1 (by norm_num [ALERT_COOLDOWN])⟩,
   ⟨by norm_num [ALERT_COOLDOWN],
    (cooldown_record_window [] ("EUR_USD", "London") 0 3700).2 (by norm_num [ALERT_COOLDOWN])⟩⟩

/-! ### C3 -/

/-- Claim C3: when the pair's last-fired timestamp is within ALERT_COOLDOWN
of now, build_trade_signal returns no signal and the whole state — including
the sent-alert log, the active-trades list and the last-alert-time map — is
returned unchanged, for every candle oracle and rank input. -/
theorem build_trade_signal_in_cooldown (env : TSEnv) (pair : String)
    (strength_data : List (String × ℤ)) (now : ℚ) (st : TSState) (t0 : ℚ)
    (hrec : alookup st.lastAlert pair = some t0)
    (hcd : now - t0 < ALERT_COOLDOWN) :
    build_trade_signal env pair strength_data now st = .ok (none, st) := by
  unfold build_trade_signal
  rw [hrec]
  simp only [Option.getD_some]
  rw [if_pos hcd]

/-- Witness for C3: pair EUR_USD last fired at 100, checked at 200. -/
theorem build_trade_signal_in_cooldown_witness :
    alookup [("EUR_USD", (100 : ℚ))] "EUR_USD" = some 100 ∧
    (200 : ℚ) - 100 < ALERT_COOLDOWN ∧
    build_trade_signal
      ⟨fun _ _ _ => [], fun _ => [], fun _ _ _ => none, fun _ _ _ => none⟩
      "EUR_USD" [] 200
      ⟨[("EUR_USD", 100)], [], fun _ => none, fun _ => false, fun _ => false, []⟩ =
      .ok (none,
        ⟨[("EUR_USD", 100)], [], fun _ => none, fun _ => false, fun _ => false, []⟩) :=
  ⟨by simp [alookup], by norm_num [ALERT_COOLDOWN],
    build_trade_signal_in_cooldown _ _ _ _ _ 100 (by simp [alookup])
      (by norm_num [ALERT_COOLDOWN])⟩

/-! ### C7 -/

/-- Counterexample to claim C7 as stated: atr with period 2 on a 2-candle
list (fewer than period + 1 = 3 candles) does not return a neutral default -
it averages the single available true range and returns 1/2. -/
theorem atr_short_input_not_default :
    atrShortCandles.length < 2 + 1 ∧ atr atrShortCandles 2 = 1 / 2 ∧
      atr atrShortCandles 2 ≠ 0 ∧ atr atrShortCandles 2 ≠ 1 / 1000 := by
  refine ⟨by norm_num [atrShortCandles], ?_, ?_, ?_⟩ <;>
    norm_num [atr, atrShortCandles, trList, trueRange]

/-- Claim C7 as amended: utils.atr returns its neutral default 0 only when
fewer than `period` candles are given; with at least period + 1 candles it
averages exactly the trailing `period` true ranges (so with exactly `period`
candles it averages the period - 1 available true ranges over `period`,
which the original claim did not predict); utils.calculate_atr returns its
neutral default 0.001 whenever fewer than period + 1 candles are given; and
both results are always nonnegative. -/
theorem atr_spec (candles : List Candle) (period : ℕ) (hp : 1 ≤ period) :
    (candles.length < period → atr candles period = 0) ∧
    (period + 1 ≤ candles.length →
      atr candles period =
        ((trList candles).drop ((trList candles).length - period)).sum / period ∧
      ((trList candles).drop ((trList candles).length - period)).length = period) ∧
    (candles.length = period →
      atr candles period = (trList candles).sum / period ∧
      (trList candles).length = period - 1) ∧
    (candles.length < period + 1 → calculate_atr candles period = 1 / 1000) ∧
    0 ≤ atr candles period ∧ 0 ≤ calculate_atr candles period := by
  refine ⟨fun h => ?_, fun h => ⟨?_, ?_⟩, fun h => ⟨?_, ?_⟩, fun h => ?_,
    atr_nonneg candles period, calculate_atr_nonneg candles period⟩
  · unfold atr
    rw [if_pos h]
  · unfold atr
    rw [if_neg (by omega)]
  · rw [List.length_drop, trList_length]
    omega
  · unfold atr
    rw [if_neg (by omega)]
    have hlen : (trList candles).length = period - 1 := by rw [trList_length]; omega
    simp only []
    rw [hlen, Nat.sub_eq_zero_of_le (Nat.sub_le _ _), List.drop_zero]
  · rw [trList_length]; omega
  · unfold calculate_atr
    rw [if_pos h]

/-- Witness for C7's amended theorem at period = 1 on the two-candle input:
1 ≤ 1, and e.g. the long-data branch applies since 1 + 1 ≤ 2. -/
theorem atr_spec_witness :
    1 ≤ 1 ∧
    ((atrShortCandles.length < 1 → atr atrShortCandles 1 = 0) ∧
    (1 + 1 ≤ atrShortCandles.length →
      atr atrShortCandles 1 =
        ((trList atrShortCandles).drop ((trList atrShortCandles).length - 1)).sum / 1 ∧
      ((trList atrShortCandles).drop ((trList atrShortCandles).length - 1)).length = 1) ∧
    (atrShortCandles.length = 1 →
      atr atrShortCandles 1 = (trList atrShortCandles).sum / 1 ∧
      (trList atrShortCandles).length = 1 - 1) ∧
    (atrShortCandles.length < 1 + 1 → calculate_atr atrShortCandles 1 = 1 / 1000) ∧
    0 ≤ atr atrShortCandles 1 ∧ 0 ≤ calculate_atr atrShortCandles 1) :=
  ⟨le_refl 1, atr_spec atrShortCandles 1 (le_refl 1)⟩

/-! ### C6 -/

theorem wilderSteps_length (period : ℚ) :
    ∀ (ag al : ℚ) (l : List (ℚ × ℚ)), (wilderSteps period ag al l).length = l.length := by
  intro ag al l
  induction l generalizing ag al with
  | nil => rfl
  | cons gl rest ih => simp [wilderSteps, ih]

theorem deltas_length (closes : List ℚ) : (deltas closes).length = closes.length - 1 := by
  simp [deltas, List.length_zip]

theorem gains_nonneg (closes : List ℚ) : ∀ x ∈ gains closes, 0 ≤ x := by
  intro x hx
  obtain ⟨d, _, rfl⟩ := List.mem_map.1 hx
  exact le_max_right d 0

theorem losses_nonneg (closes : List ℚ) : ∀ x ∈ losses closes, 0 ≤ x := by
  intro x hx
  obtain ⟨d, _, rfl⟩ := List.mem_map.1 hx
  exact abs_nonneg _

theorem rsiVal_bounds (p : ℚ × ℚ) (hag : 0 ≤ p.1) (hal : 0 ≤ p.2) :
    0 ≤ rsiVal p ∧ rsiVal p ≤ 100 := by
  unfold rsiVal
  split
  · norm_num
  · rename_i hne
    have hpos : 0 < p.2 := lt_of_le_of_ne hal (Ne.symm hne)
    have hrs : 0 ≤ p.1 / p.2 := div_nonneg hag hpos.le
    have h1 : (0 : ℚ) < 1 + p.1 / p.2 := by linarith
    have hdivpos : 0 < 100 / (1 + p.1 / p.2) := by positivity
    have hdivle : 100 / (1 + p.1 / p.2) ≤ 100 := by
      rw [div_le_iff h1]
      nlinarith
    constructor <;> linarith

theorem rsiVal_of_zero_loss (p : ℚ × ℚ) (h : p.2 = 0) : rsiVal p = 100 := by
  unfold rsiVal
  rw [if_pos h]

theorem wilderSteps_state_nonneg (period : ℚ) (hp : 1 ≤ period) :
    ∀ (l : List (ℚ × ℚ)) (ag al : ℚ), 0 ≤ ag → 0 ≤ al →
      (∀ x ∈ l, 0 ≤ x.1 ∧ 0 ≤ x.2) →
      ∀ p ∈ wilderSteps period ag al l, 0 ≤ p.1 ∧ 0 ≤ p.2 := by
  intro l
  induction l with
  | nil => intro ag al _ _ _ p hp; simp [wilderSteps] at hp
  | cons gl rest ih =>
    intro ag al hag hal hl p hmem
    have hgl := hl gl (List.mem_cons_self _ _)
    have hper : (0 : ℚ) < period := lt_of_lt_of_le one_pos hp
    have hag' : 0 ≤ (ag * (period - 1) + gl.1) / period :=
      div_nonneg (by nlinarith [hgl.1]) hper.le
    have hal' : 0 ≤ (al * (period - 1) + gl.2) / period :=
      div_nonneg (by nlinarith [hgl.2]) hper.le
    simp only [wilderSteps, List.mem_cons] at hmem
    rcases hmem with rfl | hmem
    · exact ⟨hag', hal'⟩
    · exact ih _ _ hag' hal' (fun x hx => hl x (List.mem_cons_of_mem _ hx)) p hmem

theorem rsiStates_nonneg (closes : List ℚ) (period : ℕ) (hp : 1 ≤ period) :
    ∀ p ∈ rsiStates closes period, 0 ≤ p.1 ∧ 0 ≤ p.2 := by
  intro p hmem
  unfold rsiStates at hmem
  split at hmem
  · simp at hmem
  · have hag : 0 ≤ ((gains closes).take period).sum / (period : ℚ) :=
      div_nonneg
        (List.sum_nonneg fun x hx =>
          gains_nonneg closes x ((List.take_sublist _ _).mem hx))
        (Nat.cast_nonneg period)
    have hal : 0 ≤ ((losses closes).take period).sum / (period : ℚ) :=
      div_nonneg
        (List.sum_nonneg fun x hx =>
          losses_nonneg closes x ((List.take_sublist _ _).mem hx))
        (Nat.cast_nonneg period)
    simp only [List.mem_cons] at hmem
    rcases hmem with rfl | hmem
    · exact ⟨hag, hal⟩
    · refine wilderSteps_state_nonneg (period : ℚ) (by exact_mod_cast hp) _ _ _ hag hal
        (fun x hx => ?_) p hmem
      obtain ⟨h1, h2⟩ := List.mem_zip hx
      exact ⟨gains_nonneg closes _ ((List.drop_sublist _ _).mem h1),
        losses_nonneg closes _ ((List.drop_sublist _ _).mem h2)⟩

/-- Claim C6: rsi returns no values on fewer than period + 1 closes; with
enough data it returns one value per bar from index `period` onward (that is,
length - period values); every value lies in [0, 100]; the values are exactly
rsiVal of the smoothed (avg gain, avg loss) states, and whenever the smoothed
average loss is zero the value is exactly 100 (the division is never taken in
that case). -/
theorem rsi_spec (closes : List ℚ) (period : ℕ) (hp : 1 ≤ period) :
    (closes.length < period + 1 → rsi closes period = []) ∧
    (period + 1 ≤ closes.length →
      (rsi closes period).length = closes.length - period) ∧
    (∀ v ∈ rsi closes period, 0 ≤ v ∧ v ≤ 100) ∧
    rsi closes period = (rsiStates closes period).map rsiVal ∧
    (∀ p ∈ rsiStates closes period, p.2 = 0 → rsiVal p = 100) := by
  refine ⟨fun h => ?_, fun h => ?_, fun v hv => ?_, rfl,
    fun p _ hz => rsiVal_of_zero_loss p hz⟩
  · unfold rsi rsiStates
    rw [if_pos h]
    rfl
  · have hg : (gains closes).length = closes.length - 1 := by
      simp [gains, deltas_length]
    have hl : (losses closes).length = closes.length - 1 := by
      simp [losses, deltas_length]
    unfold rsi rsiStates
    rw [if_neg (by omega)]
    simp only [List.length_map, List.length_cons, wilderSteps_length, List.length_zip,
      List.length_drop, hg, hl]
    omega
  · unfold rsi at hv
    obtain ⟨p, hmem, rfl⟩ := List.mem_map.1 hv
    exact rsiVal_bounds p (rsiStates_nonneg closes period hp p hmem).1
      (rsiStates_nonneg closes period hp p hmem).2

/-- Witness for C6 at period 1 on the closes [1, 2]. -/
theorem rsi_spec_witness :
    1 ≤ 1 ∧
    (([(1 : ℚ), 2].length < 1 + 1 → rsi [1, 2] 1 = []) ∧
    (1 + 1 ≤ [(1 : ℚ), 2].length → (rsi [1, 2] 1).length = [(1 : ℚ), 2].length - 1) ∧
    (∀ v ∈ rsi [(1 : ℚ), 2] 1, 0 ≤ v ∧ v ≤ 100) ∧
    rsi [(1 : ℚ), 2] 1 = (rsiStates [1, 2] 1).map rsiVal ∧
    (∀ p ∈ rsiStates [(1 : ℚ), 2] 1, p.2 = 0 → rsiVal p = 100)) :=
  ⟨le_refl 1, rsi_spec [1, 2] 1 (le_refl 1)⟩

/-! ### C5 and C9: the breakout detectors never fire -/

theorem mem_of_getLast?_eq {α : Type} {l : List α} {x : α}
    (h : l.getLast? = some x) : x ∈ l := by
  obtain ⟨hne, rfl⟩ := List.mem_getLast?_eq_getLast (Option.mem_def.mpr h)
  exact List.getLast_mem hne

theorem getD_mem {α : Type} {l : List α} {n : ℕ} {d : α} (h : n < l.length) :
    l.getD n d ∈ l := by
  rw [List.getD_eq_getElem l d h]
  exact List.getElem_mem h

/-- Every candle normalizeOne keeps is a dict without a "mid" key, so
indexing it with ['mid'] raises KeyError. -/
theorem normalizeOne_no_mid (pf : PyVal → Except Unit ℚ) (c d : PyVal)
    (h : normalizeOne pf c = .ok (some d)) : pvIndex d "mid" = .error () := by
  cases c with
  | dict entries =>
    simp only [normalizeOne, bind, Except.bind] at h
    repeat' split at h
    all_goals try exact Except.noConfusion h
    rw [Except.ok.injEq, Option.some.injEq] at h
    subst h
    simp [pvIndex, alookup]
  | list items =>
    simp only [normalizeOne, bind, Except.bind] at h
    repeat' split at h
    all_goals try exact Except.noConfusion h
    all_goals try exact Option.noConfusion (Except.ok.inj h)
    rw [Except.ok.injEq, Option.some.injEq] at h
    subst h
    simp [pvIndex, alookup]
  | null => simp [normalizeOne] at h
  | num q => simp [normalizeOne] at h
  | str s => simp [normalizeOne] at h

/-- Every element of a successful get_recent_candles result comes from
normalizeOne. -/
theorem normalizeCandles_mem (pf : PyVal → Except Unit ℚ) :
    ∀ (raw : List PyVal) (cs : List PyVal), normalizeCandles pf raw = .ok cs →
      ∀ d ∈ cs, ∃ c, normalizeOne pf c = .ok (some d) := by
  intro raw
  induction raw with
  | nil =>
    intro cs h d hd
    simp only [normalizeCandles, Except.ok.injEq] at h
    subst h
    simp at hd
  | cons c rest ih =>
    intro cs h d hd
    simp only [normalizeCandles, bind, Except.bind] at h
    cases hone : normalizeOne pf c with
    | error e => rw [hone] at h; simp at h
    | ok v =>
      rw [hone] at h
      cases htail : normalizeCandles pf rest with
      | error e => rw [htail] at h; simp at h
      | ok tail =>
        rw [htail] at h
        cases v with
        | some d0 =>
          simp only [Except.ok.injEq] at h
          subst h
          rcases List.mem_cons.1 hd with rfl | hd'
          · exact ⟨c, hone⟩
          · exact ih tail htail d hd'
        | none =>
          simp only [Except.ok.injEq] at h
          subst h
          exact ih _ htail d hd

theorem get_recent_candles_no_mid (fetch : String → String → ℕ → List PyVal)
    (pf : PyVal → Except Unit ℚ) (pair timeframe : String) (count : ℕ)
    (cs : List PyVal) (h : get_recent_candles fetch pf pair timeframe count = .ok cs) :
    ∀ d ∈ cs, pvIndex d "mid" = .error () := by
  intro d hd
  obtain ⟨c, hc⟩ := normalizeCandles_mem pf _ cs h d hd
  exact normalizeOne_no_mid pf c d hc

theorem check_breakout_h1_body_cases (fetch : String → String → ℕ → List PyVal)
    (pf : PyVal → Except Unit ℚ) (pair : String) :
    check_breakout_h1_body fetch pf pair = .ok false ∨
      check_breakout_h1_body fetch pf pair = .error () := by
  unfold check_breakout_h1_body
  cases hgrc : get_recent_candles fetch pf pair "H1" 1 with
  | error e =>
    cases e
    right
    simp [bind, Except.bind]
  | ok cs =>
    cases hlast : cs.getLast? with
    | none =>
      left
      simp [bind, Except.bind, hlast]
    | some last =>
      right
      have hmid : pvIndex last "mid" = .error () :=
        get_recent_candles_no_mid fetch pf pair "H1" 1 cs hgrc last
          (mem_of_getLast?_eq hlast)
      simp [bind, Except.bind, hlast, hmid]

theorem check_breakout_h1_false_aux (fetch : String → String → ℕ → List PyVal)
    (pf : PyVal → Except Unit ℚ) (pair : String) :
    check_breakout_h1 fetch pf pair = false := by
  unfold check_breakout_h1
  rcases check_breakout_h1_body_cases fetch pf pair with h | h <;> rw [h]

theorem check_breakout_yesterday_body_cases (fetch : String → String → ℕ → List PyVal)
    (pf : PyVal → Except Unit ℚ) (pair : String) :
    check_breakout_yesterday_body fetch pf pair = .ok false ∨
      check_breakout_yesterday_body fetch pf pair = .error () := by
  unfold check_breakout_yesterday_body
  cases hgrc : get_recent_candles fetch pf pair "D" 2 with
  | error e =>
    cases e
    right
    simp [bind, Except.bind]
  | ok daily =>
    by_cases hlen : daily.length < 2
    · left
      simp [bind, Except.bind, hlen]
    · right
      have hmem : daily.getD (daily.length - 2) .null ∈ daily :=
        getD_mem (by omega)
      have hmid : pvIndex (daily.getD (daily.length - 2) .null) "mid" = .error () :=
        get_recent_candles_no_mid fetch pf pair "D" 2 daily hgrc _ hmem
      simp only [List.getD_eq_getElem?_getD] at hmid
      simp [bind, Except.bind, hlen, hmid]

theorem check_breakout_yesterday_false_aux (fetch : String → String → ℕ → List PyVal)
    (pf : PyVal → Except Unit ℚ) (pair : String) :
    check_breakout_yesterday fetch pf pair = false := by
  unfold check_breakout_yesterday
  rcases check_breakout_yesterday_body_cases fetch pf pair with h | h <;> rw [h]

/-- Claim C5: for every raw fetch result and every float-conversion behavior,
breakout.check_breakout_h1 returns False: the normalized candles carry no
'mid' key, so the price lookup raises and the except branch returns False;
moreover even a candle carrying the looked-up fields cannot satisfy
close > high or close < low when its close lies between its own low and
high. -/
theorem check_breakout_h1_never_fires (fetch : String → String → ℕ → List PyVal)
    (pf : PyVal → Except Unit ℚ) (pair : String) :
    check_breakout_h1 fetch pf pair = false ∧
      ∀ lo cl hi : ℚ, lo ≤ cl → cl ≤ hi →
        (decide (cl > hi) || decide (cl < lo)) = false := by
  refine ⟨check_breakout_h1_false_aux fetch pf pair, fun lo cl hi h1 h2 => ?_⟩
  simp only [Bool.or_eq_false_iff, decide_eq_false_iff_not, not_lt]
  exact ⟨h2, h1⟩

/-- Witness for C5: a trivial fetch oracle, and the arithmetic part at the
well-formed candle (0, 1, 2). -/
theorem check_breakout_h1_never_fires_witness :
    check_breakout_h1 (fun _ _ _ => []) (fun _ => .error ()) "EUR_USD" = false ∧
      ((0 : ℚ) ≤ 1 ∧ (1 : ℚ) ≤ 2 ∧
        (decide ((1 : ℚ) > 2) || decide ((1 : ℚ) < 0)) = false) :=
  ⟨(check_breakout_h1_never_fires (fun _ _ _ => []) (fun _ => .error ()) "EUR_USD").1,
    by norm_num,
    by norm_num,
    (check_breakout_h1_never_fires (fun _ _ _ => []) (fun _ => .error ()) "EUR_USD").2
      0 1 2 (by norm_num) (by norm_num)⟩

/-- Claim C9: neither breakout strategy ever raises: on absent data, short
history, or any other input they return the no-breakout result False (in
particular no breakout is ever detected, so the detected case never
arises). -/
theorem breakout_strategies_never_raise (fetch : String → String → ℕ → List PyVal)
    (pf : PyVal → Except Unit ℚ) (pair : String) :
    check_breakout_yesterday fetch pf pair = false ∧
      check_breakout_h1 fetch pf pair = false :=
  ⟨check_breakout_yesterday_false_aux fetch pf pair,
    check_breakout_h1_false_aux fetch pf pair⟩

/-! ### C2 -/

theorem pair_none_ne_some {α β : Type} {a : α} {x y : β}
    (h : (Except.ok ((none : Option α), x) : Except Unit (Option α × β)) =
      Except.ok (some a, y)) : False := by
  injection h with h1
  injection h1 with h2 h3
  exact Option.noConfusion h2

theorem bts_finish_some (env : TSEnv) (pair : String) (now : ℚ) (scenario : String)
    (strength_diff : ℤ) (strong_curr : String) (strong_val : ℤ)
    (weak_curr : String) (weak_val : ℤ) (direction : String)
    (atr_val entry stop_loss tp1 tp2 tp3 : ℚ) (st1 : TSState) (t : Trade) (st2 : TSState)
    (h : bts_finish env pair now scenario strength_diff strong_curr strong_val
      weak_curr weak_val direction atr_val entry stop_loss tp1 tp2 tp3 st1 =
      .ok (some t, st2)) :
    t.direction = direction ∧ t.entry = entry ∧ t.stop_loss = stop_loss ∧
      t.take_profit_levels = [tp1, tp2, tp3] ∧ stop_loss ≠ entry ∧
      MIN_RRR ≤ |tp1 - entry| / |entry - stop_loss| := by
  unfold bts_finish at h
  split at h
  · exact (pair_none_ne_some h).elim
  · dsimp only [] at h
    by_cases hse : stop_loss = entry
    · rw [if_neg (not_not_intro hse)] at h
      rw [if_pos (by norm_num [MIN_RRR] : (0 : ℚ) < MIN_RRR)] at h
      exact (pair_none_ne_some h).elim
    · rw [if_pos hse] at h
      split at h
      · exact (pair_none_ne_some h).elim
      · rename_i hrr
        injection h with h1
        injection h1 with h2 h3
        obtain rfl := Option.some.inj h2
        exact ⟨rfl, rfl, rfl, rfl, hse, not_lt.1 hrr⟩

theorem bts_rsi_gate_some (env : TSEnv) (pair : String) (now : ℚ) (scenario : String)
    (strength_diff : ℤ) (strong_curr : String) (strong_val : ℤ)
    (weak_curr : String) (weak_val : ℤ) (direction : String)
    (atr_val entry stop_loss tp1 tp2 tp3 : ℚ) (st : TSState) (t : Trade) (st2 : TSState)
    (h : bts_rsi_gate env pair now scenario strength_diff strong_curr strong_val
      weak_curr weak_val direction atr_val entry stop_loss tp1 tp2 tp3 st =
      .ok (some t, st2)) :
    t.direction = direction ∧ t.entry = entry ∧ t.stop_loss = stop_loss ∧
      t.take_profit_levels = [tp1, tp2, tp3] ∧ stop_loss ≠ entry ∧
      MIN_RRR ≤ |tp1 - entry| / |entry - stop_loss| := by
  unfold bts_rsi_gate at h
  dsimp only [] at h
  split at h
  · exact (pair_none_ne_some h).elim
  · split at h
    · exact Except.noConfusion h
    · split at h
      · exact (pair_none_ne_some h).elim
      · exact bts_finish_some _ _ _ _ _ _ _ _ _ _ _ _ _ _ _ _ _ _ _ h

theorem bts_eval_some (env : TSEnv) (pair : String)
    (strength_data : List (String × ℤ)) (now : ℚ) (scenario : String)
    (breakout_level : ℚ) (h1_pivots : List ℚ) (base quote : String)
    (st : TSState) (t : Trade) (st2 : TSState)
    (h : bts_eval env pair strength_data now scenario breakout_level h1_pivots
      base quote st = .ok (some t, st2)) :
    ∃ c, (env.cand pair "M15" 1).getLast? = some c ∧ t.entry = c.close ∧
      t.stop_loss ≠ t.entry ∧
      ((t.direction = "buy" ∧
          t.stop_loss = t.entry - atr (env.cand pair "H1" 50) 14 ∧
          t.take_profit_levels = [t.entry + atr (env.cand pair "H1" 50) 14 * 2,
            t.entry + atr (env.cand pair "H1" 50) 14 * 4,
            t.entry + atr (env.cand pair "H1" 50) 14 * 6]) ∨
        (t.direction = "sell" ∧
          t.stop_loss = t.entry + atr (env.cand pair "H1" 50) 14 ∧
          t.take_profit_levels = [t.entry - atr (env.cand pair "H1" 50) 14 * 2,
            t.entry - atr (env.cand pair "H1" 50) 14 * 4,
            t.entry - atr (env.cand pair "H1" 50) 14 * 6])) ∧
      (∀ u, t.take_profit_levels.head? = some u →
        MIN_RRR ≤ |u - t.entry| / |t.entry - t.stop_loss|) := by
  unfold bts_eval at h
  dsimp only [] at h
  by_cases hd : (alookup strength_data base).getD 0 ≥ (alookup strength_data quote).getD 0
  · rw [if_pos hd] at h
    dsimp only [] at h
    split at h
    · exact (pair_none_ne_some h).elim
    · split at h
      · exact (pair_none_ne_some h).elim
      · split at h
        · exact (pair_none_ne_some h).elim
        · rename_i hne
          rw [if_pos rfl] at h
          split at h
          · exact (pair_none_ne_some h).elim
          · obtain ⟨hdir, hen, hsl, htp, hsne, hrrr⟩ :=
              bts_rsi_gate_some _ _ _ _ _ _ _ _ _ _ _ _ _ _ _ _ _ _ _ h
            obtain ⟨c, hc⟩ : ∃ c, (env.cand pair "M15" 1).getLast? = some c :=
              ⟨_, List.getLast?_eq_getLast_of_ne_nil hne⟩
            refine ⟨c, hc, ?_, ?_, Or.inl ⟨hdir, ?_, ?_⟩, ?_⟩
            · rw [hen, hc]
              rfl
            · rw [hsl, hen]
              exact fun he => hsne he
            · rw [hsl, hen]
            · rw [htp, hen]
            · intro u hu
              rw [htp] at hu
              simp only [List.head?_cons, Option.some.injEq] at hu
              subst hu
              rw [hen, hsl]
              exact hrrr
  · rw [if_neg hd] at h
    dsimp only [] at h
    split at h
    · exact (pair_none_ne_some h).elim
    · split at h
      · exact (pair_none_ne_some h).elim
      · split at h
        · exact (pair_none_ne_some h).elim
        · rename_i hne
          rw [if_neg (by decide : ¬("sell" = "buy"))] at h
          split at h
          · exact (pair_none_ne_some h).elim
          · obtain ⟨hdir, hen, hsl, htp, hsne, hrrr⟩ :=
              bts_rsi_gate_some _ _ _ _ _ _ _ _ _ _ _ _ _ _ _ _ _ _ _ h
            obtain ⟨c, hc⟩ : ∃ c, (env.cand pair "M15" 1).getLast? = some c :=
              ⟨_, List.getLast?_eq_getLast_of_ne_nil hne⟩
            refine ⟨c, hc, ?_, ?_, Or.inr ⟨hdir, ?_, ?_⟩, ?_⟩
            · rw [hen, hc]
              rfl
            · rw [hsl, hen]
              exact fun he => hsne he
            · rw [hsl, hen]
            · rw [htp, hen]
            · intro u hu
              rw [htp] at hu
              simp only [List.head?_cons, Option.some.injEq] at hu
              subst hu
              rw [hen, hsl]
              exact hrrr

/-- Claim C2: every trade signal build_trade_signal returns has entry equal
to the latest M15 close, stop-loss at exactly entry ∓ 1×ATR, take-profits at
exactly entry ± {2,4,6}×ATR strictly ascending for a buy (descending for a
sell, the whole ladder stop < entry < tp1 < tp2 < tp3 resp. reversed), and
the reward:risk on the first take-profit is at least MIN_RRR = 2.0 — so a
candidate whose first-target reward:risk falls below 2.0 is never
returned. -/
theorem build_trade_signal_risk (env : TSEnv) (pair : String)
    (strength_data : List (String × ℤ)) (now : ℚ) (st : TSState)
    (t : Trade) (st' : TSState)
    (h : build_trade_signal env pair strength_data now st = .ok (some t, st')) :
    ∃ c a, (env.cand pair "M15" 1).getLast? = some c ∧
      t.entry = c.close ∧
      a = atr (env.cand pair "H1" 50) 14 ∧ 0 < a ∧
      ((t.direction = "buy" ∧ t.stop_loss = t.entry - a ∧
          t.take_profit_levels = [t.entry + a * 2, t.entry + a * 4, t.entry + a * 6] ∧
          List.Chain' (· < ·) (t.stop_loss :: t.entry :: t.take_profit_levels)) ∨
        (t.direction = "sell" ∧ t.stop_loss = t.entry + a ∧
          t.take_profit_levels = [t.entry - a * 2, t.entry - a * 4, t.entry - a * 6] ∧
          List.Chain' (· > ·) (t.stop_loss :: t.entry :: t.take_profit_levels))) ∧
      (∀ tp1, t.take_profit_levels.head? = some tp1 →
        MIN_RRR ≤ |tp1 - t.entry| / |t.entry - t.stop_loss|) := by
  unfold build_trade_signal at h
  split at h
  · exact (pair_none_ne_some h).elim
  · dsimp only [] at h
    split at h
    · exact (pair_none_ne_some h).elim
    · split at h
      · exact (pair_none_ne_some h).elim
      · split at h
        · obtain ⟨c, hc, hentry, hsne, hshape, hrrr⟩ := bts_eval_some _ _ _ _ _ _ _ _ _ _ _ _ h
          refine ⟨c, atr (env.cand pair "H1" 50) 14, hc, hentry, rfl, ?_, ?_, hrrr⟩
          · rcases hshape with ⟨hdir, hsl, htp⟩ | ⟨hdir, hsl, htp⟩
            · have hane : atr (env.cand pair "H1" 50) 14 ≠ 0 := by
                intro h0
                apply hsne
                rw [hsl, h0, sub_zero]
              exact lt_of_le_of_ne (atr_nonneg _ _) (Ne.symm hane)
            · have hane : atr (env.cand pair "H1" 50) 14 ≠ 0 := by
                intro h0
                apply hsne
                rw [hsl, h0, add_zero]
              exact lt_of_le_of_ne (atr_nonneg _ _) (Ne.symm hane)
          · have ha : 0 < atr (env.cand pair "H1" 50) 14 := by
              rcases hshape with ⟨hdir, hsl, htp⟩ | ⟨hdir, hsl, htp⟩
              · have hane : atr (env.cand pair "H1" 50) 14 ≠ 0 := by
                  intro h0
                  apply hsne
                  rw [hsl, h0, sub_zero]
                exact lt_of_le_of_ne (atr_nonneg _ _) (Ne.symm hane)
              · have hane : atr (env.cand pair "H1" 50) 14 ≠ 0 := by
                  intro h0
                  apply hsne
                  rw [hsl, h0, add_zero]
                exact lt_of_le_of_ne (atr_nonneg _ _) (Ne.symm hane)
            rcases hshape with ⟨hdir, hsl, htp⟩ | ⟨hdir, hsl, htp⟩
            · left
              refine ⟨hdir, hsl, htp, ?_⟩
              rw [hsl, htp]
              simp only [List.chain'_cons, List.chain'_singleton, and_true]
              refine ⟨by linarith, by linarith, by linarith, by linarith⟩
            · right
              refine ⟨hdir, hsl, htp, ?_⟩
              rw [hsl, htp]
              simp only [List.chain'_cons, List.chain'_singleton, and_true]
              refine ⟨by linarith, by linarith, by linarith, by linarith⟩
        · exact Except.noConfusion h

/-- Evaluation of build_trade_signal on the concrete C2 witness market data:
it emits the BUY EUR_USD trade. -/
theorem witness_eval : build_trade_signal witEnv "EUR_USD" witStrength 3600 witState =
    .ok (some witTrade, witStateFinal) := by
  have hce : witEnv.cand = witCand := rfl
  have hge : witEnv.grsi = witGrsi := rfl
  have hbh : witEnv.bH1 = fun _ _ _ => some ((0 : ℚ), "buy", some ([] : List ℚ)) := rfl
  have hupper : pyUpper "buy" = "BUY" := rfl
  have hsplit : pySplitOn "EUR_USD" '_' = ["EUR", "USD"] := rfl
  have hrange : confirm_m15_range witEnv "EUR_USD" "buy" RANGE_LOOKBACK ATTEMPTS_NEEDED = true := by
    norm_num [confirm_m15_range, hce, witCand, witRange, witRangeC, RANGE_LOOKBACK,
      ATTEMPTS_NEEDED, List.replicate, List.range_succ, List.cons_ne_nil]
  have hatr : atr witH1 14 = 13 / 14 := by
    norm_num [atr, witH1, witC1, trList, trueRange, List.replicate]
  have hretest : check_retest_confirmation witEnv "EUR_USD" 0 "buy" = true := by
    norm_num [check_retest_confirmation, hce, hge, witCand, witGrsi, get_rsi_series, retestHit,
      witH1, witC1, atr, trList, trueRange, List.replicate, List.range_succ, List.cons_ne_nil]
  have hfin : bts_finish witEnv "EUR_USD" 3600 "Breakout Today" 14 "EUR" 7 "USD" (-7) "buy"
      (13 / 14) 10 (127 / 14) (83 / 7) (96 / 7) (109 / 7) witState1 =
      .ok (some witTrade, witStateFinal) := by
    unfold bts_finish
    rw [hrange]
    norm_num [MIN_RRR, witState1, witStateFinal, witTrade, witAlert, aset]
    rw [abs_of_pos (by norm_num : (0 : ℚ) < 13 / 7),
      abs_of_pos (by norm_num : (0 : ℚ) < 13 / 14)]
    norm_num
  have hrsi : bts_rsi_gate witEnv "EUR_USD" 3600 "Breakout Today" 14 "EUR" 7 "USD" (-7) "buy"
      (13 / 14) 10 (127 / 14) (83 / 7) (96 / 7) (109 / 7) witState =
      .ok (some witTrade, witStateFinal) := by
    unfold bts_rsi_gate
    simp [hce, hge, witCand, witFullC, witGrsi, get_rsi_series, rsiCross, hupper, witState,
      List.cons_ne_nil]
    norm_num
    exact hfin
  have heval : bts_eval witEnv "EUR_USD" witStrength 3600 "Breakout Today" 0 [] "EUR" "USD"
      witState = .ok (some witTrade, witStateFinal) := by
    unfold bts_eval
    simp [witStrength, alookup, MIN_STRONG, MAX_WEAK, confirm_h1_sr_filter, hretest, hce,
      witCand, hatr, witEntryC, List.cons_ne_nil]
    norm_num [hrsi]
  unfold build_trade_signal
  simp [hce, hbh, witCand, witState, alookup, ALERT_COOLDOWN, witH1, witC1, List.replicate,
    List.cons_ne_nil, hsplit]
  exact heval

/-- Witness for C2: the concrete run emits a trade, and the C2 theorem's
conclusion holds of it. -/
theorem build_trade_signal_risk_witness :
    build_trade_signal witEnv "EUR_USD" witStrength 3600 witState =
      .ok (some witTrade, witStateFinal) ∧
    (∃ c a, (witEnv.cand "EUR_USD" "M15" 1).getLast? = some c ∧
      witTrade.entry = c.close ∧
      a = atr (witEnv.cand "EUR_USD" "H1" 50) 14 ∧ 0 < a ∧
      ((witTrade.direction = "buy" ∧ witTrade.stop_loss = witTrade.entry - a ∧
          witTrade.take_profit_levels =
            [witTrade.entry + a * 2, witTrade.entry + a * 4, witTrade.entry + a * 6] ∧
          List.Chain' (· < ·)
            (witTrade.stop_loss :: witTrade.entry :: witTrade.take_profit_levels)) ∨
        (witTrade.direction = "sell" ∧ witTrade.stop_loss = witTrade.entry + a ∧
          witTrade.take_profit_levels =
            [witTrade.entry - a * 2, witTrade.entry - a * 4, witTrade.entry - a * 6] ∧
          List.Chain' (· > ·)
            (witTrade.stop_loss :: witTrade.entry :: witTrade.take_profit_levels))) ∧
      (∀ tp1, witTrade.take_profit_levels.head? = some tp1 →
        MIN_RRR ≤ |tp1 - witTrade.entry| / |witTrade.entry - witTrade.stop_loss|)) :=
  ⟨witness_eval,
    build_trade_signal_risk witEnv "EUR_USD" witStrength 3600 witState witTrade
      witStateFinal witness_eval⟩

/-! ### C1 and C8: the ranking tail of calculate_strength -/

theorem rankOf_eq_table :
    ∀ n, 2 ≤ n → n < 9 → ∀ i, i < n → rankOf i n = (rankTable n).getD i 0 := by
  intro n h2 h9 i hi
  interval_cases n <;> interval_cases i <;> norm_num [rankOf, pyRound, rankTable]

theorem rankTable_facts : ∀ n < 9, 2 ≤ n → ∀ i < n,
    (-7 ≤ (rankTable n).getD i 0 ∧ (rankTable n).getD i 0 ≤ 7) ∧
      (rankTable n).getD i 0 ≠ 0 := by decide

theorem rankTable_mono : ∀ n < 9, 2 ≤ n → ∀ j < n, ∀ i < n, i ≤ j →
    (rankTable n).getD j 0 ≤ (rankTable n).getD i 0 := by decide

theorem rankTable_ends : ∀ n < 9, 2 ≤ n →
    (rankTable n).getD 0 0 = 7 ∧ (rankTable n).getD (n - 1) 0 = -7 := by decide

theorem rankOf_bounds {n i : ℕ} (h2 : 2 ≤ n) (h9 : n < 9) (hi : i < n) :
    (-7 ≤ rankOf i n ∧ rankOf i n ≤ 7) ∧ rankOf i n ≠ 0 := by
  rw [rankOf_eq_table n h2 h9 i hi]
  exact rankTable_facts n h9 h2 i hi

theorem rankOf_mono {n i j : ℕ} (h2 : 2 ≤ n) (h9 : n < 9) (hj : j < n) (hij : i ≤ j) :
    rankOf j n ≤ rankOf i n := by
  rw [rankOf_eq_table n h2 h9 j hj, rankOf_eq_table n h2 h9 i (lt_of_le_of_lt hij hj)]
  exact rankTable_mono n h9 h2 j hj i (lt_of_le_of_lt hij hj) hij

theorem rankOf_top {n : ℕ} (h2 : 2 ≤ n) (h9 : n < 9) : rankOf 0 n = 7 := by
  rw [rankOf_eq_table n h2 h9 0 (by omega)]
  exact (rankTable_ends n h9 h2).1

theorem rankOf_bottom {n : ℕ} (h2 : 2 ≤ n) (h9 : n < 9) : rankOf (n - 1) n = -7 := by
  rw [rankOf_eq_table n h2 h9 (n - 1) (by omega)]
  exact (rankTable_ends n h9 h2).2

instance : IsTotal (String × ℚ) scoreGE := ⟨fun a b => le_total b.2 a.2⟩

instance : IsTrans (String × ℚ) scoreGE := ⟨fun _ _ _ hab hbc => le_trans hbc hab⟩

theorem filterMap_keyed_sublist {α β : Type} (l : List α) (g : α → Option β) :
    List.Sublist ((List.filterMap (fun a => (g a).map fun b => (a, b)) l).map Prod.fst) l := by
  induction l with
  | nil => simp
  | cons a rest ih =>
    cases hg : g a with
    | none => simpa [hg] using ih.cons a
    | some b => simpa [hg] using ih.cons₂ a

theorem avgScoresOf_keys_nodup (contribs : List (String × ℚ)) :
    ((avgScoresOf contribs).map Prod.fst).Nodup :=
  (filterMap_keyed_sublist CURRENCIES (avgAt contribs)).nodup
    (by decide : CURRENCIES.Nodup)

theorem avgScoresOf_length_le (contribs : List (String × ℚ)) :
    (avgScoresOf contribs).length ≤ 8 := by
  have h := (filterMap_keyed_sublist CURRENCIES (avgAt contribs)).length_le
  simpa [avgScoresOf, CURRENCIES] using h

theorem nodup_keys_get_inj {L : List (String × ℚ)}
    (h : (L.map Prod.fst).Nodup) (i j : Fin L.length)
    (heq : (L.get i).1 = (L.get j).1) : i = j := by
  by_contra hne
  have hpw := (List.pairwise_iff_get.1 h)
  rcases lt_or_gt_of_ne hne with hlt | hgt
  · exact hpw (i.cast (List.length_map L Prod.fst).symm)
      (j.cast (List.length_map L Prod.fst).symm) hlt (by simpa [List.get_map] using heq)
  · exact hpw (j.cast (List.length_map L Prod.fst).symm)
      (i.cast (List.length_map L Prod.fst).symm) hgt (by simpa [List.get_map] using heq.symm)

theorem ranksOf_spec (avg : List (String × ℚ)) (m : List (String × ℤ))
    (hnodup : (avg.map Prod.fst).Nodup) (h8 : avg.length ≤ 8)
    (hok : ranksOf avg = .ok m) (h2 : 2 ≤ m.length) :
    (∀ cr ∈ m, (-7 ≤ cr.2 ∧ cr.2 ≤ 7) ∧ cr.2 ≠ 0) ∧
    (∃ c s, (c, s) ∈ avg ∧ (∀ ds ∈ avg, ds.2 ≤ s) ∧ (c, (7 : ℤ)) ∈ m) ∧
    (∃ c s, (c, s) ∈ avg ∧ (∀ ds ∈ avg, s ≤ ds.2) ∧ (c, (-7 : ℤ)) ∈ m) ∧
    (∀ a sa ra b sb rb, (a, sa) ∈ avg → (b, sb) ∈ avg →
      (a, ra) ∈ m → (b, rb) ∈ m → sb < sa → rb ≤ ra) := by
  unfold ranksOf at hok
  set L := List.insertionSort scoreGE avg with hLdef
  have hperm : List.Perm L avg := List.perm_insertionSort scoreGE avg
  have hsorted : List.Sorted scoreGE L := List.sorted_insertionSort scoreGE avg
  have hLavg : L.length = avg.length := hperm.length_eq
  dsimp only [] at hok
  split at hok
  · exact Except.noConfusion hok
  · rename_i hn1
    injection hok with hm
    have hmlen : m.length = L.length := by
      rw [← hm]
      simp [List.enum_length]
    have h2n : 2 ≤ L.length := by omega
    have h9 : L.length < 9 := by omega
    have hkeysL : (L.map Prod.fst).Nodup :=
      ((hperm.map Prod.fst).nodup_iff).2 hnodup
    have hmem : ∀ x : String × ℤ, x ∈ m ↔
        ∃ i : Fin L.length, x = ((L.get i).1, rankOf i L.length) := by
      intro x
      rw [← hm]
      constructor
      · intro hx
        obtain ⟨p, hp, hfx⟩ := List.mem_map.1 hx
        have hget : L.get? p.1 = some p.2 := List.mem_enum_iff_get?.1 hp
        obtain ⟨hlt, hgete⟩ := List.get?_eq_some.1 hget
        exact ⟨⟨p.1, hlt⟩, by rw [← hfx, hgete]⟩
      · rintro ⟨i, rfl⟩
        refine List.mem_map.2 ⟨(i.1, L.get i), ?_, rfl⟩
        exact List.mem_enum_iff_get?.2 (List.get?_eq_get i.2)
    refine ⟨?_, ?_, ?_, ?_⟩
    · intro cr hcr
      obtain ⟨i, rfl⟩ := (hmem cr).1 hcr
      exact rankOf_bounds h2n h9 i.2
    · refine ⟨(L.get ⟨0, by omega⟩).1, (L.get ⟨0, by omega⟩).2, ?_, ?_, ?_⟩
      · exact hperm.subset (by simpa using L.get_mem _)
      · intro ds hds
        obtain ⟨j, hj⟩ := List.mem_iff_get.1 ((hperm.mem_iff).2 hds)
        rcases Nat.eq_zero_or_pos j.1 with hj0 | hjpos
        · have : j = ⟨0, by omega⟩ := Fin.ext hj0
          rw [← hj, this]
        · have := hsorted.rel_get_of_lt (a := ⟨0, by omega⟩) (b := j) hjpos
          rw [hj] at this
          exact this
      · exact (hmem _).2 ⟨⟨0, by omega⟩, by rw [rankOf_top h2n h9]⟩
    · refine ⟨(L.get ⟨L.length - 1, by omega⟩).1, (L.get ⟨L.length - 1, by omega⟩).2, ?_, ?_, ?_⟩
      · exact hperm.subset (by simpa using L.get_mem _)
      · intro ds hds
        obtain ⟨j, hj⟩ := List.mem_iff_get.1 ((hperm.mem_iff).2 hds)
        rcases eq_or_lt_of_le (Nat.le_sub_one_of_lt j.2) with hjl | hjl
        · have : j = ⟨L.length - 1, by omega⟩ := Fin.ext hjl
          rw [← hj, this]
        · have := hsorted.rel_get_of_lt (a := j) (b := ⟨L.length - 1, by omega⟩) hjl
          rw [hj] at this
          exact this
      · exact (hmem _).2 ⟨⟨L.length - 1, by omega⟩, by rw [rankOf_bottom h2n h9]⟩
    · intro a sa ra b sb rb hsa hsb hra hrb hlt
      obtain ⟨ia, hia⟩ := List.mem_iff_get.1 ((hperm.mem_iff).2 hsa)
      obtain ⟨ib, hib⟩ := List.mem_iff_get.1 ((hperm.mem_iff).2 hsb)
      obtain ⟨i, hi⟩ := (hmem _).1 hra
      obtain ⟨j, hj⟩ := (hmem _).1 hrb
      have hki := Prod.mk.inj hi
      have hkj := Prod.mk.inj hj
      have hkey_i : (L.get i).1 = a := hki.1.symm
      have hrank_i : ra = rankOf i L.length := hki.2
      have hkey_j : (L.get j).1 = b := hkj.1.symm
      have hrank_j : rb = rankOf j L.length := hkj.2
      have hia' : ia = i := nodup_keys_get_inj hkeysL ia i (by rw [hia, hkey_i])
      have hib' : ib = j := nodup_keys_get_inj hkeysL ib j (by rw [hib, hkey_j])
      have hsa' : (L.get i).2 = sa := by rw [← hia', hia]
      have hsb' : (L.get j).2 = sb := by rw [← hib', hib]
      have hij : i.1 ≤ j.1 := by
        by_contra hcon
        have hji : j < i := by
          rw [Fin.lt_def]
          omega
        have := hsorted.rel_get_of_lt hji
        simp only [scoreGE] at this
        rw [hsa', hsb'] at this
        exact absurd hlt (not_lt.2 this)
      rw [hrank_i, hrank_j]
      exact rankOf_mono h2n h9 j.2 hij

/-- Claim C1: in every run of calculate_strength that returns a rank map for
at least 2 currencies, all ranks lie in [-7, 7] and are nonzero, a currency
with maximal average score receives rank +7, one with minimal average score
receives rank -7, and a strictly greater average score never yields a
strictly smaller rank. -/
theorem calculate_strength_rank_spec (pairs : List String)
    (cand : String → String → ℕ → List Candle)
    (c : List (String × ℚ)) (m : List (String × ℤ))
    (hc : scoreContribs cand pairs = .ok c)
    (hok : calculate_strength pairs cand = .ok m)
    (h2 : 2 ≤ m.length) :
    (∀ cr ∈ m, (-7 ≤ cr.2 ∧ cr.2 ≤ 7) ∧ cr.2 ≠ 0) ∧
    (∃ c0 s, (c0, s) ∈ avgScoresOf c ∧ (∀ ds ∈ avgScoresOf c, ds.2 ≤ s) ∧
      (c0, (7 : ℤ)) ∈ m) ∧
    (∃ c0 s, (c0, s) ∈ avgScoresOf c ∧ (∀ ds ∈ avgScoresOf c, s ≤ ds.2) ∧
      (c0, (-7 : ℤ)) ∈ m) ∧
    (∀ a sa ra b sb rb, (a, sa) ∈ avgScoresOf c → (b, sb) ∈ avgScoresOf c →
      (a, ra) ∈ m → (b, rb) ∈ m → sb < sa → rb ≤ ra) := by
  have hro : ranksOf (avgScoresOf c) = .ok m := by
    unfold calculate_strength at hok
    rw [hc] at hok
    simpa [bind, Except.bind] using hok
  exact ranksOf_spec (avgScoresOf c) m (avgScoresOf_keys_nodup c)
    (avgScoresOf_length_le c) hro h2

theorem scoreContribs_eval : scoreContribs csCand ["EUR_USD"] = .ok csContribs := by
  norm_num [scoreContribs, pairScore, csCand, csContribs, bind, Except.bind, CURRENCIES,
    rsi, rsiStates, ema_slope, atr, trList, List.cons_ne_nil,
    (show pyContains "EUR_USD" '_' = true from rfl),
    (show pySplitOn "EUR_USD" '_' = ["EUR", "USD"] from rfl)]

theorem calculate_strength_eval :
    calculate_strength ["EUR_USD"] csCand = .ok [("USD", 7), ("EUR", -7)] := by
  have h02 : rankOf 0 2 = 7 := by norm_num [rankOf, pyRound]
  have h12 : rankOf 1 2 = -7 := by norm_num [rankOf, pyRound]
  unfold calculate_strength
  rw [scoreContribs_eval]
  simp only [bind, Except.bind]
  simp [ranksOf, avgScoresOf, avgAt, valsFor, csContribs,
    CURRENCIES, scoreGE, List.enum, List.enumFrom,
    List.filterMap_cons, List.filterMap_nil]
  norm_num [h02, h12, List.enum, List.enumFrom]

/-- Witness for C1: the EUR_USD run ranks USD +7 and EUR -7. -/
theorem calculate_strength_rank_spec_witness :
    scoreContribs csCand ["EUR_USD"] = .ok csContribs ∧
    calculate_strength ["EUR_USD"] csCand = .ok [("USD", 7), ("EUR", -7)] ∧
    2 ≤ ([("USD", (7 : ℤ)), ("EUR", -7)]).length ∧
    ((∀ cr ∈ [("USD", (7 : ℤ)), ("EUR", -7)], (-7 ≤ cr.2 ∧ cr.2 ≤ 7) ∧ cr.2 ≠ 0) ∧
    (∃ c0 s, (c0, s) ∈ avgScoresOf csContribs ∧
      (∀ ds ∈ avgScoresOf csContribs, ds.2 ≤ s) ∧
      (c0, (7 : ℤ)) ∈ [("USD", (7 : ℤ)), ("EUR", -7)]) ∧
    (∃ c0 s, (c0, s) ∈ avgScoresOf csContribs ∧
      (∀ ds ∈ avgScoresOf csContribs, s ≤ ds.2) ∧
      (c0, (-7 : ℤ)) ∈ [("USD", (7 : ℤ)), ("EUR", -7)]) ∧
    (∀ a sa ra b sb rb, (a, sa) ∈ avgScoresOf csContribs →
      (b, sb) ∈ avgScoresOf csContribs →
      (a, ra) ∈ [("USD", (7 : ℤ)), ("EUR", -7)] →
      (b, rb) ∈ [("USD", (7 : ℤ)), ("EUR", -7)] → sb < sa → rb ≤ ra)) :=
  ⟨scoreContribs_eval, calculate_strength_eval, by norm_num,
    calculate_strength_rank_spec ["EUR_USD"] csCand csContribs _
      scoreContribs_eval calculate_strength_eval (by norm_num)⟩

/-- Counterexample to claim C8 as stated: with the degenerate (but
configurable) pair list ["EUR_EUR"], exactly one currency ends up with score
data — fewer than 2 — and calculate_strength raises ZeroDivisionError
(0 * 14 / (n - 1) with n = 1) instead of returning an empty map. -/
theorem calculate_strength_single_currency_raises :
    scoreContribs csCand ["EUR_EUR"] = .ok csContribsEE ∧
    (avgScoresOf csContribsEE).length = 1 ∧
    calculate_strength ["EUR_EUR"] csCand = .error () := by
  have hsc : scoreContribs csCand ["EUR_EUR"] = .ok csContribsEE := by
    norm_num [scoreContribs, pairScore, csCand, csContribsEE, bind, Except.bind, CURRENCIES,
      rsi, rsiStates, ema_slope, atr, trList, List.cons_ne_nil,
      (show pyContains "EUR_EUR" '_' = true from rfl),
      (show pySplitOn "EUR_EUR" '_' = ["EUR", "EUR"] from rfl)]
  refine ⟨hsc, ?_, ?_⟩
  · simp [avgScoresOf, avgAt, valsFor, csContribsEE, CURRENCIES,
      List.filterMap_cons, List.filterMap_nil]
  · unfold calculate_strength
    rw [hsc]
    simp only [bind, Except.bind]
    simp [ranksOf, avgScoresOf, avgAt, valsFor, csContribsEE,
      CURRENCIES, scoreGE, List.filterMap_cons, List.filterMap_nil]

/-- Claim C8 as amended: when no currency has score data calculate_strength
returns the empty map without error, but when exactly one currency has score
data the rank interpolation divides by n - 1 = 0 and raises (modeled as
`.error`); the claim's no-error guarantee only holds for the zero-currency
case. -/
theorem calculate_strength_few_currencies (pairs : List String)
    (cand : String → String → ℕ → List Candle) (c : List (String × ℚ))
    (hc : scoreContribs cand pairs = .ok c) :
    ((avgScoresOf c).length = 0 → calculate_strength pairs cand = .ok []) ∧
    ((avgScoresOf c).length = 1 → calculate_strength pairs cand = .error ()) := by
  have hcs : calculate_strength pairs cand = ranksOf (avgScoresOf c) := by
    unfold calculate_strength
    rw [hc]
    simp [bind, Except.bind]
  have hlen : (List.insertionSort scoreGE (avgScoresOf c)).length =
      (avgScoresOf c).length := List.length_insertionSort scoreGE _
  constructor
  · intro h0
    rw [hcs]
    unfold ranksOf
    dsimp only []
    rw [if_neg (by omega)]
    rw [List.eq_nil_of_length_eq_zero (by omega : (List.insertionSort scoreGE (avgScoresOf c)).length = 0)]
    rfl
  · intro h1
    rw [hcs]
    unfold ranksOf
    dsimp only []
    rw [if_pos (by omega)]

/-- Witness for C8's amended theorem at the EUR_EUR run: one currency has
data and the function errors. -/
theorem calculate_strength_few_currencies_witness :
    scoreContribs csCand ["EUR_EUR"] = .ok csContribsEE ∧
    (((avgScoresOf csContribsEE).length = 0 →
        calculate_strength ["EUR_EUR"] csCand = .ok []) ∧
      ((avgScoresOf csContribsEE).length = 1 →
        calculate_strength ["EUR_EUR"] csCand = .error ())) := by
  have hsc : scoreContribs csCand ["EUR_EUR"] = .ok csContribsEE := by
    norm_num [scoreContribs, pairScore, csCand, csContribsEE, bind, Except.bind, CURRENCIES,
      rsi, rsiStates, ema_slope, atr, trList, List.cons_ne_nil,
      (show pyContains "EUR_EUR" '_' = true from rfl),
      (show pySplitOn "EUR_EUR" '_' = ["EUR", "EUR"] from rfl)]
  exact ⟨hsc, calculate_strength_few_currencies ["EUR_EUR"] csCand csContribsEE hsc⟩

end ForexSpec
